import Mathlib

/-!
Shallow embedding of the horcrux remote threshold signer, covering the
configuration commands (`cmd/horcrux/cmd/config.go`), the cosigner gRPC
server and the DKG commands (`signer/grpc_server.go`), together with
spec-level models of the components those entry points delegate to.
Machine integers are modelled as `Int`/`Nat`; byte strings as `List Nat`;
fallible Go functions return `Option`/`Except`.
-/

namespace Horcrux

/-- Result of Go `url.Parse`: `none` means the parse succeeded, `some e`
means it failed with error message `e`.  The `net/url` parser itself is
external library code, so validation functions take it as a parameter. -/
abbrev UrlParser := String → Option String

/-- Split a character list at every occurrence of `sep`, keeping empty
pieces, matching Go `strings.Split` for a one-character separator. -/
def splitOnChar (sep : Char) : List Char → List (List Char)
  | [] => [[]]
  | c :: rest =>
    if c = sep then [] :: splitOnChar sep rest
    else match splitOnChar sep rest with
      | h :: t => (c :: h) :: t
      | [] => [[c]]

/-- Go `strings.Split(s, sep)` for the one-character separators used in
the config command (`,` and `|`). -/
def goSplit (sep : Char) (s : String) : List String :=
  (splitOnChar sep s.data).map (fun l => ⟨l⟩)

/-- ChainNode from config.go: a single privval address. -/
structure ChainNode where
  privValAddr : String
deriving DecidableEq, Repr

/-- CosignerPeer from config.go: share id and p2p address of one peer. -/
structure CosignerPeer where
  shareID : Int
  p2pAddr : String
deriving DecidableEq, Repr

/-- CosignerConfig from config.go. -/
structure CosignerConfig where
  threshold : Int
  p2pListen : String
  peers : List CosignerPeer
deriving DecidableEq, Repr

/-- Config from config.go. -/
structure Config where
  homeDir : String
  chainID : String
  cosignerConfig : Option CosignerConfig
  chainNodes : List ChainNode
deriving DecidableEq, Repr

/-- Embedding of `validateChainNodes` (config.go): the Go loop assigns
`err = url.Parse(n.PrivValAddr)` on every iteration and returns the last
assignment, so only the final node's parse result survives. -/
def validateChainNodes (parse : UrlParser) (nodes : List ChainNode) : Option String :=
  nodes.foldl (fun _ n => parse n.privValAddr) none

/-- Embedding of `validateCosignerPeers` (config.go): the body is a TODO
and always returns nil. -/
def validateCosignerPeers (_peers : List CosignerPeer) : Option String :=
  none

/-- Embedding of `validateSingleSignerConfig` (config.go). -/
def validateSingleSignerConfig (parse : UrlParser) (cfg : Config) : Option String :=
  if cfg.chainID = "" then some "chain-id cannot be empty"
  else if cfg.chainNodes.length = 0 then some "need to have a node configured to sign for"
  else validateChainNodes parse cfg.chainNodes

/-- Embedding of `validateCosignerConfig` (config.go), checking the guards
in source order: chain id nonempty, cosigner section present,
`len(peers)+1 < threshold` rejected, `threshold < 2` rejected, p2p listen
address parses, then peer and chain-node validation. -/
def validateCosignerConfig (parse : UrlParser) (cfg : Config) : Option String :=
  if cfg.chainID = "" then some "chain-id cannot be empty"
  else match cfg.cosignerConfig with
  | none => some "cosigner config cannot be empty"
  | some cc =>
    if (cc.peers.length : Int) + 1 < cc.threshold then
      some "number of peers plus 1 must be greater than threshold"
    else if cc.threshold < 2 then some "threshold must be 2 or greater"
    else if (parse cc.p2pListen).isSome then some "failed to parse p2p listen address"
    else match validateCosignerPeers cc.peers with
    | some e => some e
    | none => validateChainNodes parse cfg.chainNodes

/-- URL parser used for concrete witnesses: every address parses.  Go's
`url.Parse` succeeds on all the literal addresses appearing in the
witnesses below (for example `tcp://0.0.0.0:2222`). -/
def parseOk : UrlParser := fun _ => none

/-- Go `path.Join` / `filepath.Join` restricted to the shapes used in the
sources: joining onto the empty string yields the other component. -/
def pathJoin (a b : String) : String :=
  if a = "" then b else a ++ "/" ++ b

/-- Parsers for external standard-library routines used by the config
commands: `url.Parse` and `strconv.ParseInt(s, 10, 64)`. -/
structure Parsers where
  url : UrlParser
  int64 : String → Option Int

/-- Embedding of `parseChainNodes` (config.go): split the argument on
commas, one ChainNode per piece. -/
def parseChainNodes (nodes : String) : List ChainNode :=
  (goSplit ',' nodes).map (fun n => { privValAddr := n })

/-- Embedding of the loop body of `peersFromFlag` (config.go), applied to
the comma-split pieces of the --peers flag: each piece must split on the
pipe into exactly an address and a share id, the share id must parse as a
base-10 int64, and the address must URL-parse. -/
def peersFromSplit (P : Parsers) : List String → Except String (List CosignerPeer)
  | [] => .ok []
  | p :: rest =>
    match goSplit '|' p with
    | [addr, idStr] =>
      match P.int64 idStr with
      | none => .error "invalid share id"
      | some shareid =>
        match P.url addr with
        | some e => .error e
        | none => do
          let out ← peersFromSplit P rest
          .ok ({ shareID := shareid, p2pAddr := addr } :: out)
    | _ => .error ("invalid peer string " ++ p)

/-- Embedding of `peersFromFlag` (config.go). -/
def peersFromFlag (P : Parsers) (peers : String) : Except String (List CosignerPeer) :=
  peersFromSplit P (goSplit ',' peers)

/-- File-system effect performed by a command, with the permission mode it
passes to the OS.  `loadOrCreateSignState` records a call into
`signer.LoadOrCreateSignState` (that function's body is outside the
embedded sources, so only the call and its path are recorded);
`writeConfigFileOp` likewise records a call into the threshold repo's
`config.WriteConfigFile`. -/
inductive FsOp where
  | mkdirAll (path : String) (mode : Nat)
  | writeFile (path : String) (mode : Nat)
  | loadOrCreateSignState (path : String)
  | writeConfigFileOp
deriving DecidableEq, Repr

/-- File-system effects of a successful `horcrux config init` run
(config.go `initCmd`): create the state directory with `os.MkdirAll(_,
0755)`, write config.yaml through `writeConfigFile` (which calls
`ioutil.WriteFile(path, yaml, 0644)`), initialize the validator sign-state
file, and additionally the share sign-state file when the node is a
cosigner. -/
def initOps (homeDir cid : String) (cs : Bool) : List FsOp :=
  [ .mkdirAll (pathJoin homeDir "state") 0o755
  , .writeFile (pathJoin homeDir "config.yaml") 0o644
  , .loadOrCreateSignState
      (pathJoin (pathJoin homeDir "state") (cid ++ "_priv_validator_state.json")) ]
  ++ (if cs then
      [ .loadOrCreateSignState
          (pathJoin (pathJoin homeDir "state") (cid ++ "_share_sign_state.json")) ]
      else [])

/-- Embedding of the `RunE` body of `initCmd` (config.go).  `cid` is the
first positional argument, `nodesArg` the optional second one, the flags
are --cosigner, --peers and --threshold, and `homeDir` is the resolved
home directory.  A successful run returns the sequence of file-system
effects it performed. -/
def initCmdRun (P : Parsers) (cid : String) (nodesArg : Option String)
    (cosignerFlag : Bool) (peersFlag : String) (thresholdFlag : Int)
    (homeDir : String) : Except String (List FsOp) := do
  let cn ← match nodesArg with
    | none => Except.ok ([] : List ChainNode)
    | some a =>
      let c := parseChainNodes a
      match validateChainNodes P.url c with
      | some e => Except.error e
      | none => Except.ok c
  if cosignerFlag then
    let peers ← peersFromFlag P peersFlag
    let cfg : Config :=
      { homeDir := homeDir
        chainID := cid
        cosignerConfig := some
          { threshold := thresholdFlag
            p2pListen := "tcp://0.0.0.0:2222"
            peers := peers }
        chainNodes := cn }
    match validateCosignerConfig P.url cfg with
    | some e => Except.error e
    | none => Except.ok (initOps homeDir cid true)
  else
    if cn.length = 0 then Except.error "must input at least one node"
    else
      let cfg : Config :=
        { homeDir := homeDir, chainID := cid, cosignerConfig := none, chainNodes := cn }
      match validateSingleSignerConfig P.url cfg with
      | some e => Except.error e
      | none => Except.ok (initOps homeDir cid false)

/-- Go `uint8(len(cosigners))` in `dkgRunCmd`: the shard count as a
wrapped 8-bit value. -/
def dkgShards (numCosigners : Nat) : Nat := numCosigners % 256

/-- Embedding of the validation block of `dkgRunCmd` (dkg.go): the list of
errors accumulated in `errs`, in source order. -/
def dkgRunValidationErrors (id : Nat) (chainID : String) (threshold shards : Nat) :
    List String :=
  (if id = 0 then ["id must not be zero"] else []) ++
  (if id > shards then ["id must not be greater than total shards"] else []) ++
  (if chainID = "" then ["chain-id flag must not be empty"] else []) ++
  (if threshold = 0 then ["threshold flag must be positive"] else []) ++
  (if shards = 0 then ["shards flag must be greater than zero"] else []) ++
  (if threshold > shards then ["threshold cannot be greater than total shards"] else []) ++
  (if threshold ≤ shards / 2 then ["threshold must be greater than total shards divided by 2"]
   else [])

/-- `dkgRunCmd` returns `errors.Join(errs...)` before touching the file
system or the ceremony exactly when `errs` is nonempty. -/
def dkgRunEarlyError (id : Nat) (chainID : String) (threshold shards : Nat) : Bool :=
  !(dkgRunValidationErrors id chainID threshold shards).isEmpty

/-- File-system effects of a successful `horcrux dkg run` (dkg.go): create
the output directory with mode 0700 when --out is nonempty, then write the
key shard with mode 0600. -/
def dkgRunOps (out chainID : String) : List FsOp :=
  (if out = "" then [] else [.mkdirAll out 0o700]) ++
  [.writeFile (pathJoin out (chainID ++ "_shard.json")) 0o600]

/-- CosignerConfig entry of the threshold-mode config used by the DKG
commands (dkg.go): shard id, address and DKG libp2p id. -/
structure DkgCosigner where
  shardID : Nat
  p2pAddr : String
  dkgID : String
deriving DecidableEq, Repr

/-- Embedding of the cosigner-update loop of `dkgInitCmd` (dkg.go): the
cosigner whose ShardID matches the --id flag receives the freshly
generated libp2p peer id; any other cosigner with an empty DKGID receives
the placeholder; all others are untouched. -/
def dkgInitCosignersUpdate (id : Nat) (p2pID : String) (cs : List DkgCosigner) :
    List DkgCosigner :=
  cs.map fun c =>
    if c.shardID = id then { c with dkgID := p2pID }
    else if c.dkgID = "" then { c with dkgID := "REPLACE ME" }
    else c

/-- File-system effects of a successful `horcrux dkg init` (dkg.go): write
the libp2p key with mode 0600, then persist the updated config. -/
def dkgInitOps (homeDir : String) : List FsOp :=
  [ .writeFile (pathJoin homeDir "libp2p.key") 0o600, .writeConfigFileOp ]

/-- Mode discipline claimed by the spec: directories 0700, files 0600. -/
def FsOp.specModeOk : FsOp → Bool
  | .mkdirAll _ m => m = 0o700
  | .writeFile _ m => m = 0o600
  | .loadOrCreateSignState _ => true
  | .writeConfigFileOp => true

/-- Cosigner section exhibiting the gap in the threshold validation:
threshold 2 with four peers (so N = 5 cosigners). -/
def ccT2N5 : CosignerConfig :=
  { threshold := 2
    p2pListen := "tcp://0.0.0.0:2222"
    peers :=
      [ { shareID := 2, p2pAddr := "tcp://node-2:2222" }
      , { shareID := 3, p2pAddr := "tcp://node-3:2222" }
      , { shareID := 4, p2pAddr := "tcp://node-4:2222" }
      , { shareID := 5, p2pAddr := "tcp://node-5:2222" } ] }

/-- Concrete config around `ccT2N5`. -/
def cfgT2N5 : Config :=
  { homeDir := "/home/user/.horcrux"
    chainID := "test"
    cosignerConfig := some ccT2N5
    chainNodes := [] }

/-- Well-formed 2-of-2 cosigner section. -/
def ccT2N2 : CosignerConfig :=
  { threshold := 2
    p2pListen := "tcp://0.0.0.0:2222"
    peers := [ { shareID := 2, p2pAddr := "tcp://node-2:2222" } ] }

/-- Concrete config around `ccT2N2`. -/
def cfgT2N2 : Config :=
  { homeDir := "/home/user/.horcrux"
    chainID := "test"
    cosignerConfig := some ccT2N2
    chainNodes := [] }

/-- State of the hashicorp raft node, as read by `raft.State()`. -/
inductive RaftState where
  | leader
  | follower
  | candidate
  | shutdown
deriving DecidableEq, Repr

/-- A cosigner as seen by the raft store: the `Cosigner` capability used
in `TransferLeadership` is only `GetID` and `GetAddress`. -/
structure RaftCosigner where
  id : Int
  address : String
deriving DecidableEq, Repr

/-- Proto response of the TransferLeadership RPC; proto3 string fields
default to the empty string. -/
structure TransferLeadershipResponse where
  leaderID : String
  leaderAddress : String
deriving DecidableEq, Repr

/-- The zero-valued proto response `&proto.CosignerGRPCTransferLeadershipResponse{}`. -/
def TransferLeadershipResponse.zero : TransferLeadershipResponse :=
  { leaderID := "", leaderAddress := "" }

/-- Raft call performed by the TransferLeadership handler: no call at
all, `LeadershipTransferToServer(serverID, serverAddress)`, or the
targetless `LeadershipTransfer()` to the next candidate. -/
inductive RaftTransferAction where
  | noTransfer
  | toServer (serverID : String) (serverAddress : String)
  | nextCandidate
deriving DecidableEq, Repr

/-- Embedding of `GRPCServer.TransferLeadership` (grpc_server.go),
returning the proto response together with the raft transfer call the
handler performs.  `p2pURLToRaftAddress` is the address translation
defined elsewhere in the signer package, taken as a parameter.  A
non-leader answers with the zero response and performs no transfer; a
leader given a nonempty target id scans the cosigners for a matching
`fmt.Sprint(c.GetID())` and, on a hit, transfers to that server and
answers with its id and raft address; a leader with an empty or unmatched
target id transfers to the next candidate and answers with the zero
response. -/
def transferLeadership (p2pURLToRaftAddress : String → String)
    (raftState : RaftState) (cosigners : List RaftCosigner)
    (reqLeaderID : String) : TransferLeadershipResponse × RaftTransferAction :=
  if raftState ≠ RaftState.leader then
    (TransferLeadershipResponse.zero, RaftTransferAction.noTransfer)
  else if reqLeaderID ≠ "" then
    match cosigners.find? (fun c => toString c.id == reqLeaderID) with
    | some c =>
      ({ leaderID := toString c.id, leaderAddress := p2pURLToRaftAddress c.address },
        RaftTransferAction.toServer (toString c.id) (p2pURLToRaftAddress c.address))
    | none => (TransferLeadershipResponse.zero, RaftTransferAction.nextCandidate)
  else (TransferLeadershipResponse.zero, RaftTransferAction.nextCandidate)

/-- Go `time.Time` reduced to the fields `UnixNano` reads: seconds since
the Unix epoch and the nanosecond within the second. -/
structure GoTime where
  sec : Int
  nsec : Int
deriving DecidableEq, Repr

/-- Wrap an integer to Go int64 two's-complement range. -/
def wrapInt64 (x : Int) : Int := (x + 2 ^ 63) % 2 ^ 64 - 2 ^ 63

/-- Go `Time.UnixNano`: seconds times 1e9 plus nanoseconds, as int64. -/
def GoTime.unixNano (t : GoTime) : Int := wrapInt64 (t.sec * 1000000000 + t.nsec)

/-- HRST key: height, round, step, timestamp (ns). -/
structure HRSTKey where
  height : Int
  round : Int
  step : Int
  timestamp : Int
deriving DecidableEq, Repr

/-- A nonce record exchanged between cosigners (proto `Nonce`). -/
structure ProtoNonce where
  sourceID : Int
  destinationID : Int
  pubKey : List Nat
  share : List Nat
deriving DecidableEq, Repr

/-- Proto HRST message carried on the wire. -/
structure ProtoHRST where
  height : Int
  round : Int
  step : Int
  timestamp : Int
deriving DecidableEq, Repr

/-- Domain-level nonce record (`CosignerNonce`). -/
structure CosignerNonce where
  sourceID : Int
  destinationID : Int
  pubKey : List Nat
  share : List Nat
deriving DecidableEq, Repr

/-- Argument struct of `LocalCosigner.SetNoncesAndSign`. -/
structure CosignerSetNoncesAndSignRequest where
  chainID : String
  encryptedSecrets : List CosignerNonce
  hrst : HRSTKey
  signBytes : List Nat
deriving DecidableEq, Repr

/-- Result struct of `LocalCosigner.SetNoncesAndSign`: the partial
signature and the timestamp it binds to. -/
structure CosignerSignResponse where
  timestamp : GoTime
  signature : List Nat
deriving DecidableEq, Repr

/-- Proto request of the SetNoncesAndSign RPC. -/
structure GrpcSetNoncesAndSignRequest where
  chainID : String
  encryptedSecrets : List ProtoNonce
  hrst : ProtoHRST
  signBytes : List Nat
deriving DecidableEq, Repr

/-- Proto response of the SetNoncesAndSign RPC. -/
structure GrpcSetNoncesAndSignResponse where
  timestamp : Int
  signature : List Nat
deriving DecidableEq, Repr

/-- The `CosignerSetNoncesAndSignRequest` literal the RPC handler builds
from the proto request, with the proto conversions
(`CosignerNoncesFromProto`, `HRSTKeyFromProto`, defined elsewhere in the
signer package) taken as parameters. -/
def snasRequestOf (noncesFromProto : List ProtoNonce → List CosignerNonce)
    (hrstFromProto : ProtoHRST → HRSTKey)
    (req : GrpcSetNoncesAndSignRequest) : CosignerSetNoncesAndSignRequest :=
  { chainID := req.chainID
    encryptedSecrets := noncesFromProto req.encryptedSecrets
    hrst := hrstFromProto req.hrst
    signBytes := req.signBytes }

/-- Embedding of `GRPCServer.SetNoncesAndSign` (grpc_server.go).  The
local cosigner's behaviour is a parameter; the handler converts the
request, delegates, and on success builds the response from the partial
signature and `res.Timestamp.UnixNano()`, otherwise returns the error. -/
def grpcSetNoncesAndSign
    (cosignerSNAS : CosignerSetNoncesAndSignRequest → Except String CosignerSignResponse)
    (noncesFromProto : List ProtoNonce → List CosignerNonce)
    (hrstFromProto : ProtoHRST → HRSTKey)
    (req : GrpcSetNoncesAndSignRequest) : Except String GrpcSetNoncesAndSignResponse :=
  match cosignerSNAS (snasRequestOf noncesFromProto hrstFromProto req) with
  | .error e => .error e
  | .ok res => .ok { timestamp := res.timestamp.unixNano, signature := res.signature }

/-- HRS key without timestamp, the index of nonce-cache entries and the
ordering key of sign state. -/
structure HRSKey where
  height : Int
  round : Int
  step : Int
deriving DecidableEq, Repr

/-- Lexicographic strict order on (height, round, step). -/
def HRSKey.lt (a b : HRSKey) : Prop :=
  a.height < b.height ∨
    (a.height = b.height ∧
      (a.round < b.round ∨ (a.round = b.round ∧ a.step < b.step)))

/-- Lexicographic order on (height, round, step). -/
def HRSKey.le (a b : HRSKey) : Prop :=
  a.height < b.height ∨
    (a.height = b.height ∧
      (a.round < b.round ∨ (a.round = b.round ∧ a.step ≤ b.step)))

instance (a b : HRSKey) : Decidable (HRSKey.lt a b) := by
  unfold HRSKey.lt; infer_instance

instance (a b : HRSKey) : Decidable (HRSKey.le a b) := by
  unfold HRSKey.le; infer_instance

/-- Lookup in the cosigner-local nonce cache, first match wins. -/
def cacheLookup (k : String × HRSKey) :
    List ((String × HRSKey) × List CosignerNonce) → Option (List CosignerNonce)
  | [] => none
  | (k', v) :: rest => if k' = k then some v else cacheLookup k rest

/-- Modelled from the spec: `LocalCosigner.GetNonces`.  The local
cosigner's implementation is not among the embedded sources (only its
gRPC wrapper is); spec 4.4 states the operation is idempotent per HRS —
a repeat returns the cached R_i and ciphertexts.  `gen` is the fresh
nonce generation performed on a cache miss. -/
def getNonces (gen : String → HRSKey → List CosignerNonce)
    (cache : List ((String × HRSKey) × List CosignerNonce))
    (chainID : String) (hrs : HRSKey) :
    List CosignerNonce × List ((String × HRSKey) × List CosignerNonce) :=
  match cacheLookup (chainID, hrs) cache with
  | some ns => (ns, cache)
  | none =>
    let ns := gen chainID hrs
    (ns, ((chainID, hrs), ns) :: cache)

/-- A sequence of GetNonces calls threaded through the nonce cache,
returning the answered (request, secrets) events and the final cache. -/
def runGetNonces (gen : String → HRSKey → List CosignerNonce)
    (cache : List ((String × HRSKey) × List CosignerNonce)) :
    List (String × HRSKey) →
      List ((String × HRSKey) × List CosignerNonce) ×
        List ((String × HRSKey) × List CosignerNonce)
  | [] => ([], cache)
  | q :: rest =>
    let step := getNonces gen cache q.1 q.2
    let restRun := runGetNonces gen step.2 rest
    ((q, step.1) :: restRun.1, restRun.2)

/-- Block as carried by the SignBlock RPC. -/
structure Block where
  height : Int
  round : Int
  step : Int
  signBytes : List Nat
  timestamp : Int
deriving DecidableEq, Repr

/-- The HRS key of a block. -/
def Block.hrs (b : Block) : HRSKey :=
  { height := b.height, round := b.round, step := b.step }

/-- Last-sign state of the validator for one chain. -/
structure SignState where
  height : Int
  round : Int
  step : Int
  signBytes : List Nat
  signature : List Nat
deriving DecidableEq, Repr

/-- The HRS key of a sign state. -/
def SignState.hrs (s : SignState) : HRSKey :=
  { height := s.height, round := s.round, step := s.step }

/-- Modelled from the spec: `ThresholdValidator.SignBlock` together with
the sign-state guard `CheckAndAdvance`/`Commit` (the threshold validator
and sign-state store are not among the embedded sources; only the gRPC
entry point `GRPCServer.SignBlock` is).  Spec 4.1/4.5: a request strictly
above the stored HRS is signed and committed before the signature is
returned; an exact HRS match with bit-identical signBytes replays the
stored signature; anything else is refused as a double-sign and no
signature is returned.  `signer` abstracts the threshold signing rounds. -/
def signBlockStep (signer : Block → List Nat) (st : SignState) (b : Block) :
    SignState × Option (List Nat) :=
  if HRSKey.lt st.hrs b.hrs then
    let sig := signer b
    ({ height := b.height, round := b.round, step := b.step
       signBytes := b.signBytes, signature := sig }, some sig)
  else if st.hrs = b.hrs ∧ st.signBytes = b.signBytes then
    (st, some st.signature)
  else (st, none)

/-- A sequence of SignBlock requests for one chain threaded through the
sign state, returning the final state and the (block, signature) events
for which a signature was returned. -/
def runSignBlocks (signer : Block → List Nat) (st : SignState) :
    List Block → SignState × List (Block × List Nat)
  | [] => (st, [])
  | b :: rest =>
    let step := signBlockStep signer st b
    let restRun := runSignBlocks signer step.1 rest
    (restRun.1,
      (match step.2 with
       | some sig => [(b, sig)]
       | none => []) ++ restRun.2)

/-! ## Theorems -/

/-- C9: `validateChainNodes` returns nil for the empty list, and for every
non-empty list (written `nodes ++ [n]`) it returns exactly the URL-parse
result of the last node's address; the parse results of all earlier nodes
are overwritten by the loop and discarded. -/
theorem validateChainNodes_last_node_only (parse : UrlParser) (nodes : List ChainNode)
    (n : ChainNode) :
    validateChainNodes parse [] = none ∧
    validateChainNodes parse (nodes ++ [n]) = parse n.privValAddr := by
  refine ⟨rfl, ?_⟩
  simp [validateChainNodes, List.foldl_append]

/-- C2 counterexample: the config `cfgT2N5` (threshold 2, four peers, so
N = 5) passes `validateCosignerConfig`, yet its threshold is not strictly
greater than N/2 (2·2 ≤ 5). -/
theorem validateCosignerConfig_accepts_minority_threshold :
    validateCosignerConfig parseOk cfgT2N5 = none ∧
    cfgT2N5.cosignerConfig = some ccT2N5 ∧
    ccT2N5.threshold = 2 ∧
    (ccT2N5.peers.length : Int) + 1 = 5 ∧
    ¬(2 * ccT2N5.threshold > 5) := by
  refine ⟨by decide, rfl, rfl, by decide, by decide⟩

/-- C2 amended: every cosigner config accepted by `validateCosignerConfig`
has threshold at least 2 and threshold at most N (the number of peers plus
one); the validator does not enforce threshold > N/2. -/
theorem validateCosignerConfig_threshold_bounds (parse : UrlParser) (cfg : Config)
    (cc : CosignerConfig) (hcc : cfg.cosignerConfig = some cc)
    (hok : validateCosignerConfig parse cfg = none) :
    2 ≤ cc.threshold ∧ cc.threshold ≤ (cc.peers.length : Int) + 1 := by
  unfold validateCosignerConfig at hok
  rw [hcc] at hok
  by_cases h0 : cfg.chainID = ""
  · simp [h0] at hok
  · simp only [h0, if_false, validateCosignerPeers] at hok
    split_ifs at hok with h1 h2 h3
    exact ⟨by omega, by omega⟩

/-- Witness for C2 amended at the accepted 2-of-2 config. -/
theorem validateCosignerConfig_threshold_bounds_witness :
    2 ≤ ccT2N2.threshold ∧ ccT2N2.threshold ≤ (ccT2N2.peers.length : Int) + 1 :=
  validateCosignerConfig_threshold_bounds parseOk cfgT2N2 ccT2N2 rfl (by decide)

/-- A one-element conditional list is empty exactly when the condition
fails. -/
theorem ite_singleton_eq_nil (c : Prop) [Decidable c] (x : String) :
    ((if c then [x] else ([] : List String)) = []) ↔ ¬c := by
  split <;> simp_all

/-- The validation error list of `dkgRunCmd` is empty exactly when none
of the seven guard conditions fires. -/
theorem dkgRunValidationErrors_eq_nil_iff (id : Nat) (chainID : String)
    (threshold shards : Nat) :
    dkgRunValidationErrors id chainID threshold shards = [] ↔
      ¬(id = 0) ∧ ¬(id > shards) ∧ ¬(chainID = "") ∧ ¬(threshold = 0) ∧
        ¬(shards = 0) ∧ ¬(threshold > shards) ∧ ¬(threshold ≤ shards / 2) := by
  simp only [dkgRunValidationErrors, List.append_eq_nil, ite_singleton_eq_nil]
  tauto

/-- C4 counterexample: with a single shard (`shards = 1`), the invocation
id 1, chain-id "test", threshold 1 passes every `dkg run` validation
check, yet its threshold is not at least 2. -/
theorem dkgRun_accepts_threshold_one :
    dkgRunEarlyError 1 "test" 1 1 = false ∧ ¬(2 ≤ 1) := by decide

/-- C4 amended: `dkg run` returns an error before performing the ceremony
or writing files exactly when id = 0, id > shards, chain-id empty,
threshold = 0, shards = 0, threshold > shards, or threshold ≤ ⌊shards/2⌋;
every accepted invocation satisfies threshold ≥ 1 and 2·threshold >
shards, hence threshold ≥ 2 whenever shards ≥ 2 (but threshold = 1 is
accepted when shards = 1). -/
theorem dkgRunEarlyError_characterization (id : Nat) (chainID : String)
    (threshold shards : Nat) :
    (dkgRunEarlyError id chainID threshold shards = true ↔
      (id = 0 ∨ id > shards ∨ chainID = "" ∨ threshold = 0 ∨ shards = 0 ∨
        threshold > shards ∨ threshold ≤ shards / 2)) ∧
    (dkgRunEarlyError id chainID threshold shards = false →
      1 ≤ threshold ∧ 2 * threshold > shards ∧ (2 ≤ shards → 2 ≤ threshold)) := by
  have hnil := dkgRunValidationErrors_eq_nil_iff id chainID threshold shards
  constructor
  · rw [dkgRunEarlyError, Bool.not_eq_true', List.isEmpty_eq_false, Ne, hnil]
    tauto
  · intro h
    rw [dkgRunEarlyError, Bool.not_eq_false', List.isEmpty_eq_true, hnil] at h
    exact ⟨by omega, by omega, by omega⟩

/-- Witness for C4 amended at the accepted invocation (2, "chain", 2, 3). -/
theorem dkgRunEarlyError_characterization_witness :
    1 ≤ 2 ∧ 2 * 2 > 3 ∧ (2 ≤ 3 → 2 ≤ 2) :=
  (dkgRunEarlyError_characterization 2 "chain" 2 3).2 (by decide)

/-- Single-cosigner raft configuration used in the leadership witnesses. -/
def raftCosignersEx : List RaftCosigner := [{ id := 2, address := "tcp://node-2:2222" }]

/-- C5 counterexample: a raft leader receiving a TransferLeadership
request without a target id does transfer leadership (to the next
candidate) but answers with the zero response, which carries no leaderID
and no leaderAddress. -/
theorem transferLeadership_empty_target_zero_response :
    (transferLeadership (fun a => a) RaftState.leader raftCosignersEx "").1 =
      TransferLeadershipResponse.zero ∧
    (transferLeadership (fun a => a) RaftState.leader raftCosignersEx "").2 =
      RaftTransferAction.nextCandidate ∧
    TransferLeadershipResponse.zero.leaderID = "" ∧
    TransferLeadershipResponse.zero.leaderAddress = "" :=
  ⟨rfl, rfl, rfl, rfl⟩

/-- C5 amended: the TransferLeadership response carries the leaderID and
leaderAddress of the cosigner to which leadership is transferred exactly
when the receiving node is the raft leader, the request names a nonempty
leaderID, and a configured cosigner's id matches it — leadership is then
transferred to that server; a leader with an empty or unmatched target id
transfers leadership to the next candidate but returns the zero response
with empty fields; a non-leader performs no transfer at all and returns
the zero response. -/
theorem transferLeadership_response (f : String → String) (st : RaftState)
    (cs : List RaftCosigner) (req : String) :
    (∀ c, st = RaftState.leader →
      cs.find? (fun c => toString c.id == req) = some c → req ≠ "" →
      transferLeadership f st cs req =
        ({ leaderID := toString c.id, leaderAddress := f c.address },
          RaftTransferAction.toServer (toString c.id) (f c.address))) ∧
    ((transferLeadership f st cs req).1 ≠ TransferLeadershipResponse.zero →
      st = RaftState.leader ∧ req ≠ "" ∧
      ∃ c, c ∈ cs ∧ toString c.id = req ∧
        transferLeadership f st cs req =
          ({ leaderID := toString c.id, leaderAddress := f c.address },
            RaftTransferAction.toServer (toString c.id) (f c.address))) ∧
    (st ≠ RaftState.leader →
      transferLeadership f st cs req =
        (TransferLeadershipResponse.zero, RaftTransferAction.noTransfer)) ∧
    (st = RaftState.leader →
      req = "" ∨ cs.find? (fun c => toString c.id == req) = none →
      transferLeadership f st cs req =
        (TransferLeadershipResponse.zero, RaftTransferAction.nextCandidate)) := by
  refine ⟨?_, ?_, ?_, ?_⟩
  · intro c hst hfind hreq
    subst hst
    unfold transferLeadership
    rw [if_neg (by simp), if_pos hreq, hfind]
  · intro h
    unfold transferLeadership at h
    by_cases hst : st = RaftState.leader
    · subst hst
      rw [if_neg (by simp)] at h
      by_cases hreq : req ≠ ""
      · rw [if_pos hreq] at h
        cases hfind : cs.find? (fun c => toString c.id == req) with
        | none => rw [hfind] at h; exact absurd rfl h
        | some c =>
          rw [hfind] at h
          refine ⟨rfl, hreq, c, List.mem_of_find?_eq_some hfind,
            by simpa using List.find?_some hfind, ?_⟩
          unfold transferLeadership
          rw [if_neg (by simp), if_pos hreq, hfind]
      · rw [if_neg hreq] at h
        exact absurd rfl h
    · rw [if_pos (by simpa using hst)] at h
      exact absurd rfl h
  · intro hst
    unfold transferLeadership
    rw [if_pos hst]
  · intro hst hcase
    subst hst
    unfold transferLeadership
    rw [if_neg (by simp)]
    rcases hcase with hreq | hfind
    · subst hreq
      rw [if_neg (by simp)]
    · by_cases hreq : req ≠ ""
      · rw [if_pos hreq, hfind]
      · rw [if_neg hreq]

/-- Witness for C5 amended: the leader answers a matching target id with
that cosigner's id and translated address, and transfers to that
server. -/
theorem transferLeadership_response_witness :
    transferLeadership (fun a => a) RaftState.leader raftCosignersEx "2" =
      ({ leaderID := "2", leaderAddress := "tcp://node-2:2222" },
        RaftTransferAction.toServer "2" "tcp://node-2:2222") := by
  have h := (transferLeadership_response (fun a => a) RaftState.leader raftCosignersEx "2").1
    { id := 2, address := "tcp://node-2:2222" } rfl (by decide) (by decide)
  simpa using h

/-- Concrete timestamp for the C6 witness: 1 second + 2 ns. -/
def goTimeEx : GoTime := { sec := 1, nsec := 2 }

/-- Cosigner signing stub that always succeeds, for the C6 witness. -/
def snasOkEx : CosignerSetNoncesAndSignRequest → Except String CosignerSignResponse :=
  fun _ => .ok { timestamp := goTimeEx, signature := [7, 7] }

/-- Field-wise HRST proto conversion, for the C6 witness. -/
def hrstFromProtoEx (h : ProtoHRST) : HRSTKey :=
  { height := h.height, round := h.round, step := h.step, timestamp := h.timestamp }

/-- Concrete SetNoncesAndSign proto request, for the C6 witness. -/
def grpcReqEx : GrpcSetNoncesAndSignRequest :=
  { chainID := "test"
    encryptedSecrets := []
    hrst := { height := 1, round := 0, step := 2, timestamp := 0 }
    signBytes := [1, 2, 3] }

/-- C6: when the underlying `LocalCosigner.SetNoncesAndSign` succeeds the
RPC response carries exactly its partial signature bytes and its
timestamp converted with `UnixNano`; when it fails the RPC propagates the
same error and produces no response. -/
theorem grpcSetNoncesAndSign_result
    (snas : CosignerSetNoncesAndSignRequest → Except String CosignerSignResponse)
    (nFP : List ProtoNonce → List CosignerNonce) (hFP : ProtoHRST → HRSTKey)
    (req : GrpcSetNoncesAndSignRequest) :
    (∀ res, snas (snasRequestOf nFP hFP req) = .ok res →
      grpcSetNoncesAndSign snas nFP hFP req =
        .ok { timestamp := res.timestamp.unixNano, signature := res.signature }) ∧
    (∀ e, snas (snasRequestOf nFP hFP req) = .error e →
      grpcSetNoncesAndSign snas nFP hFP req = .error e) := by
  constructor <;> intro x hx <;> unfold grpcSetNoncesAndSign <;> rw [hx]

/-- Witness for C6 at a concrete request: the partial signature is passed
through and the timestamp 1s + 2ns becomes 1000000002 ns. -/
theorem grpcSetNoncesAndSign_result_witness :
    grpcSetNoncesAndSign snasOkEx (fun _ => []) hrstFromProtoEx grpcReqEx =
      .ok { timestamp := goTimeEx.unixNano, signature := [7, 7] } ∧
    goTimeEx.unixNano = 1000000002 :=
  ⟨(grpcSetNoncesAndSign_result snasOkEx (fun _ => []) hrstFromProtoEx grpcReqEx).1 _ rfl,
    by decide⟩

/-- Appending equal strings on the left preserves inequality of the
remainders. -/
theorem string_append_right_ne (p s t : String) (h : s.data ≠ t.data) :
    p ++ s ≠ p ++ t := by
  intro hc
  apply h
  have hd := congrArg String.data hc
  rw [String.data_append, String.data_append] at hd
  exact List.append_cancel_left hd

/-- Joining different file names onto the same directory yields different
paths. -/
theorem pathJoin_ne_of_ne (x s t : String) (h : s ≠ t) (hd : s.data ≠ t.data) :
    pathJoin x s ≠ pathJoin x t := by
  unfold pathJoin
  split
  · exact h
  · exact string_append_right_ne (x ++ "/") s t hd

/-- A successful `config init` run performs exactly the `initOps`
effects. -/
theorem initCmdRun_ok (P : Parsers) (cid : String) (nodesArg : Option String)
    (cs : Bool) (pf : String) (tf : Int) (home : String) (ops : List FsOp)
    (h : initCmdRun P cid nodesArg cs pf tf home = .ok ops) :
    ops = initOps home cid cs := by
  unfold initCmdRun at h
  simp only [bind, Except.bind] at h
  repeat' split at h
  all_goals simp_all

/-- C7: every successful `config init` run for chain `cid` initializes
`state/cid_priv_validator_state.json` under the home directory, and
initializes `state/cid_share_sign_state.json` in addition exactly when
the cosigner flag is set. -/
theorem initCmd_initializes_state_files (P : Parsers) (cid : String)
    (nodesArg : Option String) (cs : Bool) (pf : String) (tf : Int)
    (home : String) (ops : List FsOp)
    (h : initCmdRun P cid nodesArg cs pf tf home = .ok ops) :
    FsOp.loadOrCreateSignState
        (pathJoin (pathJoin home "state") (cid ++ "_priv_validator_state.json")) ∈ ops ∧
    (FsOp.loadOrCreateSignState
        (pathJoin (pathJoin home "state") (cid ++ "_share_sign_state.json")) ∈ ops
      ↔ cs = true) := by
  rw [initCmdRun_ok P cid nodesArg cs pf tf home ops h]
  unfold initOps
  cases cs with
  | false =>
    have hne : pathJoin (pathJoin home "state") (cid ++ "_share_sign_state.json") ≠
        pathJoin (pathJoin home "state") (cid ++ "_priv_validator_state.json") := by
      refine pathJoin_ne_of_ne _ _ _ (string_append_right_ne cid _ _ (by decide)) ?_
      rw [String.data_append, String.data_append]
      intro hc
      exact absurd (List.append_cancel_left hc) (by decide)
    simp [hne]
  | true => refine ⟨by simp, by simp⟩

/-- Parsers for which every address and integer parses, used by the
concrete runs below. -/
def parsersEx : Parsers := { url := fun _ => none, int64 := fun _ => some 2 }

/-- Witness for C7 at a concrete single-signer run. -/
theorem initCmd_initializes_state_files_witness :
    FsOp.loadOrCreateSignState
        (pathJoin (pathJoin "/home/user/.horcrux" "state") ("test" ++ "_priv_validator_state.json")) ∈
      initOps "/home/user/.horcrux" "test" false ∧
    (FsOp.loadOrCreateSignState
        (pathJoin (pathJoin "/home/user/.horcrux" "state") ("test" ++ "_share_sign_state.json")) ∈
      initOps "/home/user/.horcrux" "test" false ↔ false = true) :=
  initCmd_initializes_state_files parsersEx "test" (some "tcp://node-1:1234") false "" 0
    "/home/user/.horcrux" (initOps "/home/user/.horcrux" "test" false) rfl

/-- C3 counterexample: a successful `config init` run creates the state
directory (a directory for persisted state) with mode 0755, not 0700, and
writes the config file with mode 0644, not 0600. -/
theorem initCmd_modes_counterexample :
    initCmdRun parsersEx "test" (some "tcp://node-1:1234") false "" 0 "/home/user/.horcrux" =
      .ok (initOps "/home/user/.horcrux" "test" false) ∧
    FsOp.mkdirAll (pathJoin "/home/user/.horcrux" "state") 0o755 ∈
      initOps "/home/user/.horcrux" "test" false ∧
    (0o755 : Nat) ≠ 0o700 ∧
    FsOp.writeFile (pathJoin "/home/user/.horcrux" "config.yaml") 0o644 ∈
      initOps "/home/user/.horcrux" "test" false ∧
    (0o644 : Nat) ≠ 0o600 :=
  ⟨rfl, by simp [initOps], by decide, by simp [initOps], by decide⟩

/-- C3 amended: the dkg commands create directories with mode 0700 and
write key and shard files with mode 0600, but `config init` creates the
state directory with mode 0755 and writes the config file with mode
0644. -/
theorem persisted_file_modes (out cid home : String) (cs : Bool) :
    (dkgRunOps out cid).all FsOp.specModeOk = true ∧
    (dkgInitOps home).all FsOp.specModeOk = true ∧
    FsOp.mkdirAll (pathJoin home "state") 0o755 ∈ initOps home cid cs ∧
    FsOp.writeFile (pathJoin home "config.yaml") 0o644 ∈ initOps home cid cs := by
  refine ⟨?_, by simp [dkgInitOps, FsOp.specModeOk], by simp [initOps], by simp [initOps]⟩
  by_cases h : out = "" <;> simp [dkgRunOps, h, FsOp.specModeOk]

/-- Concrete cosigner list for the C10 witness: shard 2 is the dkg
participant, shard 1 has no dkg id yet, shard 3 already has one. -/
def dkgCosignersEx : List DkgCosigner :=
  [ { shardID := 1, p2pAddr := "tcp://node-1:2222", dkgID := "" }
  , { shardID := 2, p2pAddr := "tcp://node-2:2222", dkgID := "" }
  , { shardID := 3, p2pAddr := "tcp://node-3:2222", dkgID := "existing-peer-id" } ]

/-- C10: after the `dkg init` cosigner update with shard id `id`, the
cosigner at any position whose ShardID equals `id` carries the new libp2p
peer id, any other cosigner whose DKGID was empty carries the
placeholder, and any other cosigner with a nonempty DKGID is unchanged. -/
theorem dkgInit_dkgID_update (id : Nat) (p2pID : String) (cs : List DkgCosigner)
    (i : Nat) (hi : i < cs.length)
    (hi2 : i < (dkgInitCosignersUpdate id p2pID cs).length) :
    ((cs.get ⟨i, hi⟩).shardID = id →
      (dkgInitCosignersUpdate id p2pID cs).get ⟨i, hi2⟩ =
        { cs.get ⟨i, hi⟩ with dkgID := p2pID }) ∧
    ((cs.get ⟨i, hi⟩).shardID ≠ id → (cs.get ⟨i, hi⟩).dkgID = "" →
      (dkgInitCosignersUpdate id p2pID cs).get ⟨i, hi2⟩ =
        { cs.get ⟨i, hi⟩ with dkgID := "REPLACE ME" }) ∧
    ((cs.get ⟨i, hi⟩).shardID ≠ id → (cs.get ⟨i, hi⟩).dkgID ≠ "" →
      (dkgInitCosignersUpdate id p2pID cs).get ⟨i, hi2⟩ = cs.get ⟨i, hi⟩) := by
  simp only [dkgInitCosignersUpdate, List.get_eq_getElem, List.getElem_map]
  refine ⟨?_, ?_, ?_⟩
  · intro h1; rw [if_pos h1]
  · intro h1 h2; rw [if_neg h1, if_pos h2]
  · intro h1 h2; rw [if_neg h1, if_neg h2]

/-- Witness for C10 on `dkgCosignersEx` with id 2: the matching shard
gets the peer id, the empty one gets the placeholder, the nonempty one is
unchanged. -/
theorem dkgInit_dkgID_update_witness :
    (dkgInitCosignersUpdate 2 "new-peer-id" dkgCosignersEx).get ⟨1, by decide⟩ =
      { shardID := 2, p2pAddr := "tcp://node-2:2222", dkgID := "new-peer-id" } ∧
    (dkgInitCosignersUpdate 2 "new-peer-id" dkgCosignersEx).get ⟨0, by decide⟩ =
      { shardID := 1, p2pAddr := "tcp://node-1:2222", dkgID := "REPLACE ME" } ∧
    (dkgInitCosignersUpdate 2 "new-peer-id" dkgCosignersEx).get ⟨2, by decide⟩ =
      { shardID := 3, p2pAddr := "tcp://node-3:2222", dkgID := "existing-peer-id" } := by
  refine ⟨?_, ?_, ?_⟩
  · exact ((dkgInit_dkgID_update 2 "new-peer-id" dkgCosignersEx 1 (by decide)
      (by decide)).1 (by decide)).trans (by decide)
  · exact (((dkgInit_dkgID_update 2 "new-peer-id" dkgCosignersEx 0 (by decide)
      (by decide)).2.1 (by decide) (by decide))).trans (by decide)
  · exact (((dkgInit_dkgID_update 2 "new-peer-id" dkgCosignersEx 2 (by decide)
      (by decide)).2.2 (by decide) (by decide))).trans (by decide)

/-- A GetNonces call leaves its own key cached with the returned
secrets. -/
theorem getNonces_lookup_self (gen : String → HRSKey → List CosignerNonce)
    (cache : List ((String × HRSKey) × List CosignerNonce)) (c : String) (h : HRSKey) :
    cacheLookup (c, h) (getNonces gen cache c h).2 = some (getNonces gen cache c h).1 := by
  unfold getNonces
  cases hl : cacheLookup (c, h) cache with
  | some ns => simp [hl]
  | none => simp [hl, cacheLookup]

/-- A GetNonces call never changes an entry that is already cached. -/
theorem getNonces_lookup_preserved (gen : String → HRSKey → List CosignerNonce)
    (cache : List ((String × HRSKey) × List CosignerNonce)) (c : String) (h : HRSKey)
    (k : String × HRSKey) (v : List CosignerNonce)
    (hk : cacheLookup k cache = some v) :
    cacheLookup k (getNonces gen cache c h).2 = some v := by
  unfold getNonces
  cases hl : cacheLookup (c, h) cache with
  | some ns => simpa using hk
  | none =>
    simp only [cacheLookup]
    split
    · rename_i heq
      rw [← heq] at hk
      rw [hl] at hk
      exact Option.noConfusion hk
    · exact hk

/-- A run of GetNonces calls never changes an entry that is already
cached. -/
theorem runGetNonces_lookup_preserved (gen : String → HRSKey → List CosignerNonce)
    (qs : List (String × HRSKey))
    (cache : List ((String × HRSKey) × List CosignerNonce))
    (k : String × HRSKey) (v : List CosignerNonce)
    (hk : cacheLookup k cache = some v) :
    cacheLookup k (runGetNonces gen cache qs).2 = some v := by
  induction qs generalizing cache with
  | nil => simpa using hk
  | cons q rest ih =>
    simp only [runGetNonces]
    exact ih _ (getNonces_lookup_preserved gen cache q.1 q.2 k v hk)

/-- Every event of a GetNonces run is recorded in the final cache. -/
theorem runGetNonces_events_cached (gen : String → HRSKey → List CosignerNonce)
    (qs : List (String × HRSKey))
    (cache : List ((String × HRSKey) × List CosignerNonce)) :
    ∀ e ∈ (runGetNonces gen cache qs).1,
      cacheLookup e.1 (runGetNonces gen cache qs).2 = some e.2 := by
  induction qs generalizing cache with
  | nil => simp [runGetNonces]
  | cons q rest ih =>
    intro e he
    simp only [runGetNonces, List.mem_cons] at he ⊢
    rcases he with he | he
    · subst he
      exact runGetNonces_lookup_preserved gen rest _ _ _ (getNonces_lookup_self gen cache q.1 q.2)
    · exact ih _ e he

/-- C8: within any sequence of GetNonces calls, any two calls for the
same (chainID, HRS) return identical encrypted secrets: the first call's
result is cached and every repeat returns the cached value. -/
theorem getNonces_idempotent (gen : String → HRSKey → List CosignerNonce)
    (cache : List ((String × HRSKey) × List CosignerNonce))
    (qs : List (String × HRSKey)) :
    ∀ e1 ∈ (runGetNonces gen cache qs).1, ∀ e2 ∈ (runGetNonces gen cache qs).1,
      e1.1 = e2.1 → e1.2 = e2.2 := by
  intro e1 h1 e2 h2 hk
  have c1 := runGetNonces_events_cached gen qs cache e1 h1
  have c2 := runGetNonces_events_cached gen qs cache e2 h2
  rw [hk] at c1
  exact Option.some.inj (c1.symm.trans c2)

/-- Nonce generator stub for the C8 witness. -/
def genEx : String → HRSKey → List CosignerNonce :=
  fun _ _ => [{ sourceID := 1, destinationID := 2, pubKey := [5], share := [6] }]

/-- Repeated query for the C8 witness. -/
def hrsEx : HRSKey := { height := 100, round := 0, step := 2 }

/-- Witness for C8: two calls for ("test", 100/0/2) in one run return the
same secrets. -/
theorem getNonces_idempotent_witness :
    ((runGetNonces genEx [] [("test", hrsEx), ("test", hrsEx)]).1.get ⟨0, by decide⟩).2 =
      ((runGetNonces genEx [] [("test", hrsEx), ("test", hrsEx)]).1.get ⟨1, by decide⟩).2 :=
  getNonces_idempotent genEx [] [("test", hrsEx), ("test", hrsEx)]
    ((runGetNonces genEx [] [("test", hrsEx), ("test", hrsEx)]).1.get ⟨0, by decide⟩)
    (by decide)
    ((runGetNonces genEx [] [("test", hrsEx), ("test", hrsEx)]).1.get ⟨1, by decide⟩)
    (by decide) (by decide)

/-- The lexicographic HRS order is reflexive. -/
theorem HRSKey.le_of_eq_self (a : HRSKey) : a.le a := by
  unfold HRSKey.le; omega

/-- The lexicographic HRS order is transitive. -/
theorem HRSKey.le_trans {a b c : HRSKey} (h1 : a.le b) (h2 : b.le c) : a.le c := by
  unfold HRSKey.le at *; omega

/-- The lexicographic HRS order is antisymmetric. -/
theorem HRSKey.le_antisymm {a b : HRSKey} (h1 : a.le b) (h2 : b.le a) : a = b := by
  cases a with | mk ah ar as =>
  cases b with | mk bh br bs =>
  unfold HRSKey.le at h1 h2
  simp only at h1 h2
  have h3 : ah = bh ∧ ar = br ∧ as = bs := by omega
  rw [h3.1, h3.2.1, h3.2.2]

/-- Strictly smaller HRS keys are smaller. -/
theorem HRSKey.le_of_lt {a b : HRSKey} (h : a.lt b) : a.le b := by
  unfold HRSKey.lt at h; unfold HRSKey.le; omega

/-- Strictly smaller HRS keys are different. -/
theorem HRSKey.ne_of_lt {a b : HRSKey} (h : a.lt b) : a ≠ b := by
  intro hc
  subst hc
  unfold HRSKey.lt at h
  omega

/-- A SignBlock step never moves the stored HRS backwards. -/
theorem signBlockStep_state_le (f : Block → List Nat) (st : SignState) (b : Block) :
    st.hrs.le (signBlockStep f st b).1.hrs := by
  unfold signBlockStep
  by_cases h1 : HRSKey.lt st.hrs b.hrs
  · rw [if_pos h1]
    exact HRSKey.le_of_lt h1
  · rw [if_neg h1]
    by_cases h2 : st.hrs = b.hrs ∧ st.signBytes = b.signBytes
    · rw [if_pos h2]
      exact HRSKey.le_of_eq_self st.hrs
    · rw [if_neg h2]
      exact HRSKey.le_of_eq_self st.hrs

/-- A SignBlock step that returns a signature leaves the stored state at
the request's HRS, with the request's payload and the returned
signature. -/
theorem signBlockStep_event (f : Block → List Nat) (st : SignState) (b : Block)
    (sig : List Nat) (hc : (signBlockStep f st b).2 = some sig) :
    b.hrs = (signBlockStep f st b).1.hrs ∧
    b.signBytes = (signBlockStep f st b).1.signBytes ∧
    sig = (signBlockStep f st b).1.signature := by
  unfold signBlockStep at hc ⊢
  by_cases h1 : HRSKey.lt st.hrs b.hrs
  · rw [if_pos h1] at hc ⊢
    exact ⟨rfl, rfl, (Option.some.inj hc).symm⟩
  · rw [if_neg h1] at hc ⊢
    by_cases h2 : st.hrs = b.hrs ∧ st.signBytes = b.signBytes
    · rw [if_pos h2] at hc ⊢
      exact ⟨h2.1.symm, h2.2.symm, (Option.some.inj hc).symm⟩
    · rw [if_neg h2] at hc
      exact Option.noConfusion hc

/-- A SignBlock step that keeps the stored HRS also keeps the stored
payload. -/
theorem signBlockStep_bytes_eq (f : Block → List Nat) (st : SignState) (b : Block)
    (h : st.hrs = (signBlockStep f st b).1.hrs) :
    st.signBytes = (signBlockStep f st b).1.signBytes := by
  unfold signBlockStep at h ⊢
  by_cases h1 : HRSKey.lt st.hrs b.hrs
  · rw [if_pos h1] at h
    exact absurd h (HRSKey.ne_of_lt h1)
  · rw [if_neg h1] at h ⊢
    by_cases h2 : st.hrs = b.hrs ∧ st.signBytes = b.signBytes
    · rw [if_pos h2]
    · rw [if_neg h2]

/-- Run invariant for SignBlock sequences: the stored HRS never moves
backwards, every answered request lies between the initial and final
stored HRS, answered requests at the initial HRS carry the initial
payload, and any two answered requests at the same HRS carry the same
payload. -/
theorem runSignBlocks_inv (f : Block → List Nat) (blocks : List Block) (st : SignState) :
    st.hrs.le (runSignBlocks f st blocks).1.hrs ∧
    (∀ e ∈ (runSignBlocks f st blocks).2, st.hrs.le e.1.hrs) ∧
    (∀ e ∈ (runSignBlocks f st blocks).2, e.1.hrs = st.hrs → e.1.signBytes = st.signBytes) ∧
    (∀ e1 ∈ (runSignBlocks f st blocks).2, ∀ e2 ∈ (runSignBlocks f st blocks).2,
      e1.1.hrs = e2.1.hrs → e1.1.signBytes = e2.1.signBytes) := by
  induction blocks generalizing st with
  | nil =>
    refine ⟨HRSKey.le_of_eq_self st.hrs, ?_, ?_, ?_⟩ <;> simp [runSignBlocks]
  | cons b rest ih =>
    obtain ⟨ih1, ih2, ih3, ih4⟩ := ih ((signBlockStep f st b).1)
    have hS1 := signBlockStep_state_le f st b
    cases hc : (signBlockStep f st b).2 with
    | none =>
      simp only [runSignBlocks, hc, List.nil_append]
      refine ⟨HRSKey.le_trans hS1 ih1, ?_, ?_, ih4⟩
      · intro e he
        exact HRSKey.le_trans hS1 (ih2 e he)
      · intro e he heq
        have hle : ((signBlockStep f st b).1).hrs = st.hrs :=
          HRSKey.le_antisymm (heq ▸ ih2 e he) hS1
        have hb := signBlockStep_bytes_eq f st b hle.symm
        rw [ih3 e he (heq.trans hle.symm), ← hb]
    | some sig =>
      obtain ⟨hbh, hbb, _⟩ := signBlockStep_event f st b sig hc
      simp only [runSignBlocks, hc, List.singleton_append]
      have hhead : ∀ e ∈ (runSignBlocks f (signBlockStep f st b).1 rest).2,
          e.1.hrs = b.hrs → e.1.signBytes = b.signBytes := by
        intro e he heq
        rw [ih3 e he (heq.trans hbh), ← hbb]
      refine ⟨HRSKey.le_trans hS1 ih1, ?_, ?_, ?_⟩
      · intro e he
        rcases List.mem_cons.mp he with he | he
        · rw [he]
          exact hbh ▸ hS1
        · exact HRSKey.le_trans hS1 (ih2 e he)
      · intro e he heq
        rcases List.mem_cons.mp he with he | he
        · subst he
          have hle : ((signBlockStep f st b).1).hrs = st.hrs :=
            HRSKey.le_antisymm (heq ▸ hbh ▸ HRSKey.le_of_eq_self _) hS1
          have hb := signBlockStep_bytes_eq f st b hle.symm
          rw [show ((b, sig) : Block × List Nat).1.signBytes = b.signBytes from rfl, hbb,
            ← hb]
        · have hle : ((signBlockStep f st b).1).hrs = st.hrs :=
            HRSKey.le_antisymm (heq ▸ ih2 e he) hS1
          have hb := signBlockStep_bytes_eq f st b hle.symm
          rw [ih3 e he (heq.trans hle.symm), ← hb]
      · intro e1 h1 e2 h2 heq
        rcases List.mem_cons.mp h1 with h1 | h1 <;> rcases List.mem_cons.mp h2 with h2 | h2
        · rw [h1, h2]
        · subst h1
          exact (hhead e2 h2 heq.symm).symm
        · subst h2
          exact hhead e1 h1 heq
        · exact ih4 e1 h1 e2 h2 heq

/-- C1: for every chain, over any sequence of SignBlock requests started
from any sign state, the stored (H, R, S) advances only forward in the
lexicographic order, and among the requests for which a signature was
returned no two comparable-both-ways (that is, equal) HRS keys carry
different signBytes — no double-sign. -/
theorem signBlock_double_sign_invariant (f : Block → List Nat) (st : SignState)
    (blocks : List Block) :
    st.hrs.le (runSignBlocks f st blocks).1.hrs ∧
    (∀ e1 ∈ (runSignBlocks f st blocks).2, ∀ e2 ∈ (runSignBlocks f st blocks).2,
      e1.1.hrs.le e2.1.hrs → e2.1.hrs.le e1.1.hrs → e1.1.signBytes = e2.1.signBytes) := by
  obtain ⟨h1, _, _, h4⟩ := runSignBlocks_inv f blocks st
  exact ⟨h1, fun e1 m1 e2 m2 hle1 hle2 => h4 e1 m1 e2 m2 (HRSKey.le_antisymm hle1 hle2)⟩

/-- Signer stub for the C1 witness. -/
def signerEx : Block → List Nat := fun _ => [9, 9]

/-- Initial sign state for the C1 witness. -/
def signState0 : SignState :=
  { height := 0, round := 0, step := 0, signBytes := [], signature := [] }

/-- First block of the C1 witness: height 100, round 0, step 2. -/
def blockEx1 : Block :=
  { height := 100, round := 0, step := 2, signBytes := [1], timestamp := 0 }

/-- Second block of the C1 witness: same HRS as `blockEx1`, identical
payload (a replay). -/
def blockEx2 : Block :=
  { height := 100, round := 0, step := 2, signBytes := [1], timestamp := 7 }

/-- Witness for C1 on the run [blockEx1, blockEx2]: the state advances
from 0/0/0 and the replayed request carries the same payload. -/
theorem signBlock_double_sign_invariant_witness :
    signState0.hrs.le (runSignBlocks signerEx signState0 [blockEx1, blockEx2]).1.hrs ∧
    (blockEx1, signerEx blockEx1).1.signBytes = (blockEx2, [9, 9]).1.signBytes :=
  ⟨(signBlock_double_sign_invariant signerEx signState0 [blockEx1, blockEx2]).1,
    (signBlock_double_sign_invariant signerEx signState0 [blockEx1, blockEx2]).2
      (blockEx1, signerEx blockEx1) (by decide) (blockEx2, [9, 9]) (by decide)
      (by decide) (by decide)⟩

end Horcrux
